import Mathlib

/-!
Verification development for the text-redaction program in `src/main.py` and
`src/redactor.py`.  Documents are modelled as lists of Unicode characters
(`Text := List Char`); the Python string operations the program uses
(`str.replace`, `re.sub`/`findall` for the two concrete phone patterns,
`str.split`, `str.lower`, `str.strip`) are embedded as executable Lean
functions, and the program's helper functions and pipelines are translated
from the source.  External collaborators (the spaCy recognizer and sentence
segmenter, the WordNet expansion, file I/O) appear as universally
quantified inputs or as explicit state (the statistics sink's contents).
-/

namespace Redact

/-- A document is a sequence of Unicode scalar values. -/
abbrev Text := List Char

/-- The censor character `█` (U+2588) used by both programs. -/
def censorChar : Char := '█'

/-- Python whitespace characters recognized by `str.split()` and by the
regex class `\s` (ASCII part, which covers all inputs considered here). -/
def isPySpace (c : Char) : Bool :=
  c = ' ' || c = '\t' || c = '\n' || c = '\r' || c = '\x0b' || c = '\x0c'

/-- ASCII digit, the `[0-9]` / `\d` character class of the phone patterns. -/
def isDigitCh (c : Char) : Bool :=
  '0' ≤ c && c ≤ '9'

/-- The separator class `[\s.-]` (resp. `[-.\s]`) of the phone patterns. -/
def sepCls (c : Char) : Bool :=
  isPySpace c || c = '.' || c = '-'

/-! ### Python `str.replace` -/

/-- Helper for Python `str.replace` with an empty pattern: the replacement
is inserted before every character and once at the end. -/
def interleaveEmptyPat (new : Text) : Text → Text
  | [] => new
  | c :: rest => new ++ c :: interleaveEmptyPat new rest

/-- Fuelled worker for `replaceAll`; the fuel is an upper bound on the
length of the remaining string, so the `0` case is never reached when the
function is called through `replaceAll`. -/
def replaceAllF (pat new : Text) : Nat → Text → Text
  | _, [] => []
  | 0, s => s
  | Nat.succ f, c :: rest =>
    if pat.isPrefixOf (c :: rest) then
      new ++ replaceAllF pat new f (List.drop (pat.length - 1) rest)
    else
      c :: replaceAllF pat new f rest

/-- Python `str.replace(pat, new)`: replace every non-overlapping
occurrence of `pat`, scanning left to right. -/
def replaceAll (s pat new : Text) : Text :=
  if pat = [] then interleaveEmptyPat new s
  else replaceAllF pat new s.length s

/-! ### A backtracking matcher for the two phone regexes

Both phone patterns in the source are plain concatenations of
character-class repetitions (`\(?`, `[0-9]{1,3}`, `[\s.-]?`, ...), so they
are represented as a list of items `(class, lo, hi)` and matched with the
greedy backtracking semantics of Python's `re` module. -/

/-- One regex item: a character class repeated between `lo` and `hi`
times, greedily. -/
structure RItem where
  cls : Char → Bool
  lo : Nat
  hi : Nat

/-- Try `n, n-1, ..., lo` repetitions of the class (greedy), calling the
continuation `k` on the rest of the input; returns the total number of
characters consumed. -/
def tryRepsK (cls : Char → Bool) (lo : Nat) (k : Text → Option Nat) (s : Text) : Nat → Option Nat
  | 0 => if lo = 0 then k s else none
  | Nat.succ n =>
    if Nat.succ n < lo then none
    else
      match (if Nat.succ n ≤ s.length && (s.take (Nat.succ n)).all cls then
               k (s.drop (Nat.succ n)) else none) with
      | some m => some (Nat.succ n + m)
      | none => tryRepsK cls lo k s n

/-- Match a whole item list at the start of `s`, returning the number of
characters consumed (leftmost-greedy with full backtracking, as Python's
`re.match` does for such patterns). -/
def matchFrom : List RItem → Text → Option Nat
  | [], _ => some 0
  | it :: rest, s => tryRepsK it.cls it.lo (fun s2 => matchFrom rest s2) s it.hi

/-- Fuelled worker for `re.sub(pattern, lambda m: censor * len(m.group()), s)`:
scan left to right, replacing each match by an equal-length censor run. -/
def reSubF (pat : List RItem) : Nat → Text → Text
  | _, [] => []
  | 0, s => s
  | Nat.succ f, c :: rest =>
    match matchFrom pat (c :: rest) with
    | some (Nat.succ n) =>
        List.replicate (Nat.succ n) censorChar ++ reSubF pat f (List.drop n rest)
    | _ => c :: reSubF pat f rest

/-- `re.sub` with the censoring replacement used at `src/main.py:32`. -/
def reSub (pat : List RItem) (s : Text) : Text :=
  reSubF pat s.length s

/-- Fuelled worker for `re.findall`. -/
def reFindAllF (pat : List RItem) : Nat → Text → List Text
  | _, [] => []
  | 0, _ => []
  | Nat.succ f, c :: rest =>
    match matchFrom pat (c :: rest) with
    | some (Nat.succ n) => (c :: List.take n rest) :: reFindAllF pat f (List.drop n rest)
    | some 0 => [] :: reFindAllF pat f rest
    | none => reFindAllF pat f rest

/-- `re.findall pattern s` (`src/main.py:33`). -/
def reFindAll (pat : List RItem) (s : Text) : List Text :=
  reFindAllF pat s.length s

/-- Fuelled worker for `re.finditer`, reporting `(start, length)` spans. -/
def reFindSpansF (pat : List RItem) : Nat → Text → Nat → List (Nat × Nat)
  | _, [], _ => []
  | 0, _, _ => []
  | Nat.succ f, c :: rest, pos =>
    match matchFrom pat (c :: rest) with
    | some (Nat.succ n) =>
        (pos, Nat.succ n) :: reFindSpansF pat f (List.drop n rest) (pos + Nat.succ n)
    | some 0 => (pos, 0) :: reFindSpansF pat f rest (pos + 1)
    | none => reFindSpansF pat f rest (pos + 1)

/-- The `(start, length)` spans of all matches, as `re.finditer` reports
them (`src/redactor.py:18`). -/
def reFindSpans (pat : List RItem) (s : Text) : List (Nat × Nat) :=
  reFindSpansF pat s.length s 0

/-- The phone pattern of `src/main.py:31`:
`(\(?\+?[0-9]{1,3}\)?[\s.-]?[0-9]{1,4}[\s.-]?[0-9]{1,4}[\s.-]?[0-9]{1,9})`. -/
def phonePattern : List RItem :=
  [⟨fun c => c = '(', 0, 1⟩, ⟨fun c => c = '+', 0, 1⟩, ⟨isDigitCh, 1, 3⟩,
   ⟨fun c => c = ')', 0, 1⟩, ⟨sepCls, 0, 1⟩, ⟨isDigitCh, 1, 4⟩,
   ⟨sepCls, 0, 1⟩, ⟨isDigitCh, 1, 4⟩, ⟨sepCls, 0, 1⟩, ⟨isDigitCh, 1, 9⟩]

/-- The phone pattern of `src/redactor.py:16`:
`\(?\d{3}\)?[-.\s]?\d{3}[-.\s]?\d{4}`. -/
def redactorPhonePattern : List RItem :=
  [⟨fun c => c = '(', 0, 1⟩, ⟨isDigitCh, 3, 3⟩, ⟨fun c => c = ')', 0, 1⟩,
   ⟨sepCls, 0, 1⟩, ⟨isDigitCh, 3, 3⟩, ⟨sepCls, 0, 1⟩, ⟨isDigitCh, 4, 4⟩]

/-! ### Python `str.split()`, `str.lower()`, `str.strip()` -/

/-- Fuelled worker for `str.split()` (split on runs of whitespace, no
empty tokens). -/
def splitWsF : Nat → Text → List Text
  | _, [] => []
  | 0, _ => []
  | Nat.succ f, c :: rest =>
    if isPySpace c then splitWsF f rest
    else (c :: List.takeWhile (fun d => !isPySpace d) rest)
           :: splitWsF f (List.dropWhile (fun d => !isPySpace d) rest)

/-- Python `str.split()` with no argument. -/
def splitWs (s : Text) : List Text :=
  splitWsF s.length s

/-- Python `str.lower()`, modelled characterwise. -/
def toLowerText (s : Text) : Text :=
  s.map Char.toLower

/-- Python `str.strip()`: drop leading and trailing whitespace. -/
def pyStrip (s : Text) : Text :=
  ((s.dropWhile isPySpace).reverse.dropWhile isPySpace).reverse

/-! ### The program's data and helper functions -/

/-- A spaCy entity as the program uses it: `ent.text`, `ent.label_`,
`ent.start_char`, `ent.end_char`.  Entities are produced by the external
recognizer, so they are inputs of the embedding. -/
structure Ent where
  text : Text
  label : String
  start_char : Nat
  end_char : Nat
deriving DecidableEq

/-- One entry of the statistics list, mirroring the content of the
formatted lines the program appends (`src/main.py:25,34,58`). -/
inductive StatEntry where
  | entity (label : String) (text : Text) (startc endc : Nat)
  | phone (text : Text)
  | concept (text : Text)
deriving DecidableEq

/-- The label filter of `src/main.py:22`. -/
def entityLabels : List String := ["PERSON", "DATE", "GPE", "ORG"]

/-- The body of the loop in `redact_entities` (`src/main.py:21-25`). -/
def entRedactStep (acc : Text × List StatEntry) (ent : Ent) : Text × List StatEntry :=
  if entityLabels.contains ent.label then
    (replaceAll acc.1 ent.text (List.replicate ent.text.length censorChar),
     acc.2 ++ [StatEntry.entity ent.label ent.text ent.start_char ent.end_char])
  else acc

/-- `redact_entities` (`src/main.py:17-27`): starting from the document
text, replace each qualifying entity's text (every occurrence, via
`str.replace`) with an equal-length censor run, appending one stat entry
per entity. -/
def redact_entities (docText : Text) (entities : List Ent) : Text × List StatEntry :=
  entities.foldl entRedactStep (docText, [])

/-- `redact_phone_numbers` (`src/main.py:30-35`): censor every regex match
by an equal-length censor run and report one stat entry per match. -/
def redact_phone_numbers (text : Text) : Text × List StatEntry :=
  (reSub phonePattern text, (reFindAll phonePattern text).map StatEntry.phone)

/-- The per-sentence trigger of `src/main.py:56` / `src/redactor.py:47`:
some whitespace-delimited lowercase token of the sentence belongs to the
expanded concept-word set. -/
def sentTriggers (conceptWords : List Text) (sent : Text) : Bool :=
  (splitWs (toLowerText sent)).any (fun w => conceptWords.contains w)

/-- The body of the loop in `redact_concept_sentences`
(`src/main.py:55-58`): when a sentence's token set meets the concept
words, replace the sentence's text (every occurrence, via `str.replace`)
with an equal-length censor run. -/
def conceptStep (conceptWords : List Text) (acc : Text × List StatEntry)
    (sent : Text) : Text × List StatEntry :=
  if sentTriggers conceptWords sent then
    (replaceAll acc.1 sent (List.replicate sent.length censorChar),
     acc.2 ++ [StatEntry.concept (pyStrip sent)])
  else acc

/-- `redact_concept_sentences` (`src/main.py:47-59`), the loop over the
segmenter's sentences. -/
def redact_concept_sentences (docText : Text) (sents : List Text)
    (conceptWords : List Text) : Text × List StatEntry :=
  sents.foldl (conceptStep conceptWords) (docText, [])

/-- The CLI flags collected by `main` (`src/main.py:120-128`). -/
structure Flags where
  names : Bool
  dates : Bool
  phones : Bool
  address : Bool
deriving DecidableEq

/-- The entity list built in `process_file` (`src/main.py:72-78`). -/
def entitiesToRedact (ents : List Ent) (f : Flags) : List Ent :=
  (if f.names then ents.filter (fun e => e.label == "PERSON") else []) ++
  (if f.dates then ents.filter (fun e => e.label == "DATE") else []) ++
  (if f.address then ents.filter (fun e => e.label == "GPE" || e.label == "ORG") else [])

/-- `process_file` (`src/main.py:62-103`), as a function of its external
inputs: the document text, the recognizer's entities over it, the flags,
the concept seeds, the segmenter run on the intermediate text
(`resegment`, modelling `nlp(text).sents` at line 90), and the WordNet
expansion (`expand`, modelling `get_related_words`).  Returns the text
written to the `.censored` file and the collected statistics. -/
def process_file (text : Text) (ents : List Ent) (f : Flags)
    (concepts : List Text) (resegment : Text → List Text)
    (expand : Text → List Text) : Text × List StatEntry :=
  let step1 : Text × List StatEntry :=
    if f.names || f.dates || f.address then
      redact_entities text (entitiesToRedact ents f)
    else (text, [])
  let step2 : Text × List StatEntry :=
    if f.phones then
      let p := redact_phone_numbers step1.1
      (p.1, step1.2 ++ p.2)
    else step1
  if concepts ≠ [] then
    let sents := resegment step2.1
    let conceptWords := concepts.foldl (fun acc c => acc ++ expand c) []
    let r := redact_concept_sentences step2.1 sents conceptWords
    (r.1, step2.2 ++ r.2)
  else step2

/-- The body of the entity loop in `censor_text` (`src/redactor.py:41-43`). -/
def censorEntStep (entity_types : List String) (acc : Text) (ent : Ent) : Text :=
  if entity_types.contains ent.label then
    replaceAll acc ent.text (List.replicate ent.text.length censorChar)
  else acc

/-- The body of the sentence loop in `censor_text` (`src/redactor.py:46-48`). -/
def censorSentStep (concept_words : List Text) (acc : Text) (sent : Text) : Text :=
  if sentTriggers concept_words sent then
    replaceAll acc sent (List.replicate sent.length censorChar)
  else acc

/-- `censor_text` (`src/redactor.py:36-50`): entity pass then concept
pass, both by equal-length `str.replace`. -/
def censor_text (docText : Text) (ents : List Ent) (entity_types : List String)
    (sents : List Text) (concept_words : List Text) : Text :=
  sents.foldl (censorSentStep concept_words)
    (ents.foldl (censorEntStep entity_types) docText)

/-- The `entity_types` set built by `main` in `src/redactor.py:108-116`
from the CLI flags. -/
def buildEntityTypes (names dates phones address : Bool) : List String :=
  (if names then ["PERSON"] else []) ++ (if dates then ["DATE"] else []) ++
  (if phones then ["PHONE"] else []) ++ (if address then ["GPE"] else [])

/-- `censored_items["NAMES"]` (`src/redactor.py:83`). -/
def countNAMES (ents : List Ent) (entity_types : List String) : Nat :=
  ents.countP (fun e => e.label == "PERSON" && entity_types.contains "NAMES")

/-- `censored_items["DATES"]` (`src/redactor.py:84`). -/
def countDATES (ents : List Ent) (entity_types : List String) : Nat :=
  ents.countP (fun e => e.label == "DATE" && entity_types.contains "DATES")

/-- `censored_items["PHONES"]` (`src/redactor.py:85`). -/
def countPHONES (ents : List Ent) (entity_types : List String) : Nat :=
  ents.countP (fun e => e.label == "PHONE" && entity_types.contains "PHONES")

/-- `censored_items["ADDRESS"]` (`src/redactor.py:86`). -/
def countADDRESS (ents : List Ent) (entity_types : List String) : Nat :=
  ents.countP (fun e => e.label == "GPE" && entity_types.contains "ADDRESS")

/-! ### The batch loops and the statistics sink -/

/-- The file loop of `main` in `src/main.py:135-140`: each per-file
outcome (an external effect) either yields that file's statistics or
raises.  There is no handler, so an exception propagates immediately and
the remaining files are not processed. -/
def mainLoop : List (Except String (List StatEntry)) → Except String (List StatEntry)
  | [] => Except.ok []
  | r :: rs =>
    match r with
    | Except.error e => Except.error e
    | Except.ok s =>
      match mainLoop rs with
      | Except.error e => Except.error e
      | Except.ok t => Except.ok (s ++ t)

/-- The Python interpreter's exit code for `src/main.py`'s `main`: `0` on
normal return, nonzero when an exception escapes. -/
def mainExitCode : Except String (List StatEntry) → Nat
  | Except.ok _ => 0
  | Except.error _ => 1

/-- The file loop of `main` in `src/redactor.py:125-130`: each failure is
caught, an error line is printed, and the loop continues.  Returns the
number of files fully processed and the printed error lines. -/
def redactorLoop : List (Except String Unit) → Nat × List String
  | [] => (0, [])
  | Except.ok _ :: rs =>
    let r := redactorLoop rs
    (r.1 + 1, r.2)
  | Except.error e :: rs =>
    let r := redactorLoop rs
    (r.1, ("Error processing file: " ++ e) :: r.2)

/-- `src/redactor.py`'s `main` returns normally whatever the per-file
outcomes were, so the process exit code is always `0`. -/
def redactorExitCode (_ : List (Except String Unit)) : Nat := 0

/-- The sink effect of `log_statistics` with a file path
(`src/redactor.py:64-65`): the file is opened in mode `'a'`, so the entry
is appended after the sink's current contents. -/
def log_statistics_sink (sink : Text) (entry : Text) : Text :=
  sink ++ entry

/-- Join a list of stat lines with newlines, as `"\n".join(stats)` does. -/
def joinLines : List Text → Text
  | [] => []
  | [l] => l
  | l :: ls => l ++ '\n' :: joinLines ls

/-- The sink effect of the statistics write in `src/main.py:149-150`: the
file is opened in mode `'w'`, which truncates it, so the previous sink
contents are discarded and only the joined stat lines remain. -/
def main_write_stats (_sink : Text) (stats : List Text) : Text :=
  joinLines stats

end Redact

namespace Redact

/-! ### Length preservation of the rewriting primitives -/

theorem interleaveEmptyPat_nil (s : Text) : interleaveEmptyPat [] s = s := by
  induction s with
  | nil => rfl
  | cons c rest ih => simp [interleaveEmptyPat, ih]

theorem isPrefixOf_length_le : ∀ p s : Text, p.isPrefixOf s = true → p.length ≤ s.length := by
  intro p
  induction p with
  | nil => intro s _; simp
  | cons a ps ih =>
    intro s h
    cases s with
    | nil => simp [List.isPrefixOf] at h
    | cons b rest =>
      simp only [List.isPrefixOf, Bool.and_eq_true] at h
      have := ih rest h.2
      simp only [List.length_cons]
      omega

theorem replaceAllF_length (pat new : Text) (hne : pat ≠ [])
    (hlen : pat.length = new.length) :
    ∀ f s, s.length ≤ f → (replaceAllF pat new f s).length = s.length := by
  intro f
  induction f with
  | zero =>
    intro s hs
    cases s with
    | nil => rfl
    | cons c rest => simp at hs
  | succ f ih =>
    intro s hs
    cases s with
    | nil => rfl
    | cons c rest =>
      have hp1 : 1 ≤ pat.length := by
        cases pat with
        | nil => exact absurd rfl hne
        | cons p ps => simp
      simp only [replaceAllF]
      split
      · rename_i hpre
        have hple : pat.length ≤ rest.length + 1 := by
          simpa using isPrefixOf_length_le pat (c :: rest) hpre
        have hrec := ih (List.drop (pat.length - 1) rest)
          (by simp only [List.length_drop]; simp only [List.length_cons] at hs; omega)
        simp only [List.length_append, hrec, List.length_drop, List.length_cons]
        omega
      · have hrec := ih rest (by simp at hs; omega)
        simp [hrec]

theorem replaceAll_length (s pat new : Text) (hlen : pat.length = new.length) :
    (replaceAll s pat new).length = s.length := by
  unfold replaceAll
  split
  · rename_i hp
    have : new = [] := by
      subst hp
      simpa using hlen.symm
    rw [this, interleaveEmptyPat_nil]
  · exact replaceAllF_length pat new (by assumption) hlen s.length s (Nat.le_refl _)

theorem tryRepsK_le (cls : Char → Bool) (lo : Nat) (k : Text → Option Nat)
    (hk : ∀ s m, k s = some m → m ≤ s.length) :
    ∀ n s r, tryRepsK cls lo k s n = some r → r ≤ s.length := by
  intro n
  induction n with
  | zero =>
    intro s r h
    simp only [tryRepsK] at h
    split at h
    · exact hk s r h
    · exact absurd h (by simp)
  | succ n ih =>
    intro s r h
    simp only [tryRepsK] at h
    split at h
    · exact absurd h (by simp)
    · split at h
      · rename_i m hm
        split at hm
        · rename_i hcond
          simp only [Bool.and_eq_true, decide_eq_true_eq] at hcond
          have hm' := hk _ _ hm
          simp only [List.length_drop] at hm'
          cases h
          omega
        · exact absurd hm (by simp)
      · exact ih s r h

theorem matchFrom_le : ∀ (items : List RItem) (s : Text) (n : Nat),
    matchFrom items s = some n → n ≤ s.length := by
  intro items
  induction items with
  | nil =>
    intro s n h
    simp only [matchFrom, Option.some.injEq] at h
    omega
  | cons it rest ih =>
    intro s n h
    exact tryRepsK_le it.cls it.lo _ (fun s2 m hm => ih s2 m hm) it.hi s n h

theorem reSubF_length (pat : List RItem) :
    ∀ f s, s.length ≤ f → (reSubF pat f s).length = s.length := by
  intro f
  induction f with
  | zero =>
    intro s hs
    cases s with
    | nil => rfl
    | cons c rest => simp at hs
  | succ f ih =>
    intro s hs
    cases s with
    | nil => rfl
    | cons c rest =>
      simp only [List.length_cons] at hs
      cases hm : matchFrom pat (c :: rest) with
      | none => simp [reSubF, hm, ih rest (by omega)]
      | some n =>
        cases n with
        | zero => simp [reSubF, hm, ih rest (by omega)]
        | succ n =>
          have hle : Nat.succ n ≤ rest.length + 1 := by
            simpa using matchFrom_le pat (c :: rest) _ hm
          have hrec := ih (List.drop n rest) (by simp; omega)
          simp only [reSubF, hm, List.length_append, List.length_replicate, hrec,
            List.length_drop, List.length_cons]
          omega

theorem reSub_length (pat : List RItem) (s : Text) : (reSub pat s).length = s.length :=
  reSubF_length pat s.length s (Nat.le_refl _)

/-! ### Length preservation of the program's redaction passes -/

theorem foldl_entRedactStep_length (ents : List Ent) :
    ∀ acc : Text × List StatEntry,
      (ents.foldl entRedactStep acc).1.length = acc.1.length := by
  induction ents with
  | nil => intro acc; rfl
  | cons e es ih =>
    intro acc
    rw [List.foldl_cons, ih]
    unfold entRedactStep
    split
    · exact replaceAll_length _ _ _ (by simp)
    · rfl

theorem redact_entities_length (docText : Text) (ents : List Ent) :
    (redact_entities docText ents).1.length = docText.length :=
  foldl_entRedactStep_length ents (docText, [])

theorem redact_phone_numbers_length (text : Text) :
    (redact_phone_numbers text).1.length = text.length :=
  reSub_length phonePattern text

theorem foldl_conceptStep_length (cw : List Text) (sents : List Text) :
    ∀ acc : Text × List StatEntry,
      (sents.foldl (conceptStep cw) acc).1.length = acc.1.length := by
  induction sents with
  | nil => intro acc; rfl
  | cons s ss ih =>
    intro acc
    rw [List.foldl_cons, ih]
    unfold conceptStep
    split
    · exact replaceAll_length _ _ _ (by simp)
    · rfl

theorem redact_concept_sentences_length (docText : Text) (sents cw : List Text) :
    (redact_concept_sentences docText sents cw).1.length = docText.length :=
  foldl_conceptStep_length cw sents (docText, [])

theorem foldl_censorEntStep_length (et : List String) (ents : List Ent) :
    ∀ acc : Text, (ents.foldl (censorEntStep et) acc).length = acc.length := by
  induction ents with
  | nil => intro acc; rfl
  | cons e es ih =>
    intro acc
    rw [List.foldl_cons, ih]
    unfold censorEntStep
    split
    · exact replaceAll_length _ _ _ (by simp)
    · rfl

theorem foldl_censorSentStep_length (cw : List Text) (sents : List Text) :
    ∀ acc : Text, (sents.foldl (censorSentStep cw) acc).length = acc.length := by
  induction sents with
  | nil => intro acc; rfl
  | cons s ss ih =>
    intro acc
    rw [List.foldl_cons, ih]
    unfold censorSentStep
    split
    · exact replaceAll_length _ _ _ (by simp)
    · rfl

theorem censor_text_length (docText : Text) (ents : List Ent)
    (entity_types : List String) (sents : List Text) (cw : List Text) :
    (censor_text docText ents entity_types sents cw).length = docText.length := by
  unfold censor_text
  rw [foldl_censorSentStep_length, foldl_censorEntStep_length]

theorem process_file_length (text : Text) (ents : List Ent) (f : Flags)
    (concepts : List Text) (resegment : Text → List Text)
    (expand : Text → List Text) :
    (process_file text ents f concepts resegment expand).1.length = text.length := by
  unfold process_file
  split_ifs <;>
    simp only [redact_concept_sentences_length, redact_phone_numbers, reSub_length,
      redact_entities_length]

/-! ### Tokens produced by `str.split()` contain no whitespace -/

theorem splitWsF_no_space :
    ∀ (f : Nat) (s : Text), ∀ tok ∈ splitWsF f s, ∀ c ∈ tok, isPySpace c = false := by
  intro f
  induction f with
  | zero =>
    intro s tok htok
    cases s with
    | nil => simp [splitWsF] at htok
    | cons c rest => simp [splitWsF] at htok
  | succ f ih =>
    intro s tok htok
    cases s with
    | nil => simp [splitWsF] at htok
    | cons c rest =>
      simp only [splitWsF] at htok
      split at htok
      · exact ih rest tok htok
      · rename_i hc
        rcases List.mem_cons.mp htok with h | h
        · subst h
          intro d hd
          rcases List.mem_cons.mp hd with h | h
          · subst h
            simpa using hc
          · simpa using List.mem_takeWhile_imp h
        · exact ih _ tok h

theorem splitWs_no_space (s : Text) :
    ∀ tok ∈ splitWs s, ∀ c ∈ tok, isPySpace c = false :=
  splitWsF_no_space s.length s

/-! ### Multi-word concept entries never meet a token -/

theorem anyCongr {α} (l : List α) (p q : α → Bool) (h : ∀ a ∈ l, p a = q a) :
    l.any p = l.any q := by
  induction l with
  | nil => rfl
  | cons a as ih =>
    simp only [List.any_cons, h a (List.mem_cons_self a as),
      ih (fun b hb => h b (List.mem_cons_of_mem a hb))]

theorem sentTriggers_filter (cw : List Text) (sent : Text) :
    sentTriggers (cw.filter (fun w => !w.contains ' ')) sent = sentTriggers cw sent := by
  unfold sentTriggers
  apply anyCongr
  intro tok htok
  have hns : ∀ c ∈ tok, isPySpace c = false := splitWs_no_space (toLowerText sent) tok htok
  have hsp : tok.contains ' ' = false := by
    cases hcs : tok.contains ' ' with
    | false => rfl
    | true =>
      have : (' ' : Char) ∈ tok := by
        simpa using hcs
      have := hns ' ' this
      simp [isPySpace] at this
  cases hmem : cw.contains tok with
  | false =>
    have : tok ∉ cw := by simpa using hmem
    have : tok ∉ cw.filter (fun w => !w.contains ' ') := fun hmf =>
      this (List.mem_of_mem_filter hmf)
    simpa using this
  | true =>
    have htcw : tok ∈ cw := by simpa using hmem
    have : tok ∈ cw.filter (fun w => !w.contains ' ') :=
      List.mem_filter.mpr ⟨htcw, by change (!tok.contains ' ') = true; rw [hsp]; rfl⟩
    simpa using this

theorem foldl_conceptStep_filter (cw : List Text) (sents : List Text) :
    ∀ acc : Text × List StatEntry,
      sents.foldl (conceptStep (cw.filter (fun w => !w.contains ' '))) acc =
        sents.foldl (conceptStep cw) acc := by
  induction sents with
  | nil => intro acc; rfl
  | cons s ss ih =>
    intro acc
    rw [List.foldl_cons, List.foldl_cons, ih]
    congr 1
    unfold conceptStep
    rw [sentTriggers_filter]

/-! ### The mislabelled statistics keys of `src/redactor.py` -/

theorem buildEntityTypes_no_stats_keys (n d p a : Bool) :
    (buildEntityTypes n d p a).contains "NAMES" = false ∧
    (buildEntityTypes n d p a).contains "DATES" = false ∧
    (buildEntityTypes n d p a).contains "PHONES" = false ∧
    (buildEntityTypes n d p a).contains "ADDRESS" = false := by
  cases n <;> cases d <;> cases p <;> cases a <;> decide

/-! ### The claims -/

/-- C1: the claim says the rewritten output censors exactly the resolved
spans and no unrelated occurrence of the same substring.  The code
(`redact_entities`, via `str.replace`) censors *every* occurrence: for
document `"ab ab"` with the single resolved span `[0,2)` `PERSON` `"ab"`,
position 3 lies outside every resolved span yet is turned from `'a'` into
the censor character. -/
theorem C1_replace_censors_unrelated_occurrence :
    (redact_entities "ab ab".data [⟨"ab".data, "PERSON", 0, 2⟩]).1 = "██ ██".data ∧
    ("ab ab".data)[3]? = some 'a' ∧
    ((redact_entities "ab ab".data [⟨"ab".data, "PERSON", 0, 2⟩]).1)[3]? =
      some censorChar := by decide

/-- C2: for every input document and every configuration of requested
categories and concepts (and any outputs of the external recognizer,
segmenter and lexical expansion), the censored output text of
`process_file` (`src/main.py`) and of `censor_text` (`src/redactor.py`)
has exactly the same character length as the input document. -/
theorem C2_output_length_eq_input_length (text : Text) (ents : List Ent) (f : Flags)
    (concepts : List Text) (resegment : Text → List Text) (expand : Text → List Text)
    (ents2 : List Ent) (entity_types : List String) (sents : List Text)
    (cw : List Text) :
    (process_file text ents f concepts resegment expand).1.length = text.length ∧
    (censor_text text ents2 entity_types sents cw).length = text.length :=
  ⟨process_file_length text ents f concepts resegment expand,
   censor_text_length text ents2 entity_types sents cw⟩

/-- C3: the claim says overlapping matches `[0,5)` `PERSON` and `[3,8)`
`DATE` merge into one resolved span `[0,8)` censored in full.  The code
performs two independent substring replacements: the first replacement
destroys the second match's text, so on `"abcdefgh"` the output is
`"█████fgh"` — positions `[5,8)` are left uncensored, and no merged span
exists (the statistics do list each category once). -/
theorem C3_overlapping_matches_not_merged :
    redact_entities "abcdefgh".data
        [⟨"abcde".data, "PERSON", 0, 5⟩, ⟨"defgh".data, "DATE", 3, 8⟩] =
      ("█████fgh".data,
       [StatEntry.entity "PERSON" "abcde".data 0 5,
        StatEntry.entity "DATE" "defgh".data 3 8]) ∧
    "█████fgh".data ≠ List.replicate 8 censorChar := by decide

/-- C4: the claim says the phone detector scans the original document and
its result is independent of detector order.  In `process_file` the phone
stage receives the entity-redacted text: on `"1 23 45 678"` with a `DATE`
entity `"23"`, the pipeline's phone detector reports `"45 678"`, while the
same detector run on the original document reports `"1 23 45 678"` — the
phone matches depend on the previously-run entity redaction. -/
theorem C4_phone_scan_depends_on_prior_redaction :
    (process_file "1 23 45 678".data [⟨"23".data, "DATE", 2, 4⟩]
        ⟨false, true, true, false⟩ [] (fun _ => []) (fun _ => [])).2 =
      [StatEntry.entity "DATE" "23".data 2 4, StatEntry.phone "45 678".data] ∧
    (redact_phone_numbers "1 23 45 678".data).2 =
      [StatEntry.phone "1 23 45 678".data] ∧
    StatEntry.phone "45 678".data ≠ StatEntry.phone "1 23 45 678".data := by decide

/-- C5: the claim says a per-file failure never aborts the batch and the
process exits non-zero only if all files failed.  The file loop of
`src/main.py` has no handler: with a batch of two files where the first
raises and the second would succeed, the loop aborts with the exception
(the second file's statistics are never produced) and the interpreter
exits non-zero although not all files failed; `src/redactor.py`'s loop
does continue, but its exit code is `0` no matter what failed. -/
theorem C5_first_failure_aborts_batch :
    mainLoop [Except.error "read failed",
        Except.ok [StatEntry.phone "5551234567".data]] =
      Except.error "read failed" ∧
    mainExitCode (mainLoop [Except.error "read failed",
        Except.ok [StatEntry.phone "5551234567".data]]) = 1 ∧
    redactorLoop [Except.error "read failed", Except.ok ()] =
      (1, ["Error processing file: read failed"]) ∧
    redactorExitCode [Except.error "read failed", Except.ok ()] = 0 :=
  ⟨rfl, rfl, by decide, rfl⟩

/-- C6: the claim says a sentence containing none of the expanded words is
left untouched.  With expanded set `{dog, hound}`, document
`"a dog\ni said a dogma."` and segmenter sentences `"a dog"` and
`"i said a dogma."`: the second sentence triggers no match (no token of it
is in the set), yet the substring replacement for the first sentence also
censors the characters `"a dog"` inside `"a dogma"`, so the second
sentence's region is not left untouched. -/
theorem C6_concept_redaction_censors_unrelated_sentence :
    redact_concept_sentences "a dog\ni said a dogma.".data
        ["a dog".data, "i said a dogma.".data] ["dog".data, "hound".data] =
      ("█████\ni said █████ma.".data, [StatEntry.concept "a dog".data]) ∧
    sentTriggers ["dog".data, "hound".data] "i said a dogma.".data = false ∧
    "█████\ni said █████ma.".data ≠ "█████\ni said a dogma.".data := by decide

/-- C7: on `"Call (415) 555-2671 now"` the phone detector of
`src/main.py` yields exactly one `PHONE` match, exactly the phone
substring, and the output keeps `"Call "` and `" now"` verbatim with the
middle span entirely censor characters; the regex of
`src/redactor.py`'s `add_phone_component` likewise finds exactly the span
`[5, 19)`. -/
theorem C7_phone_detection_exact :
    redact_phone_numbers "Call (415) 555-2671 now".data =
      ("Call ██████████████ now".data, [StatEntry.phone "(415) 555-2671".data]) ∧
    "Call ██████████████ now".data =
      "Call ".data ++ List.replicate 14 censorChar ++ " now".data ∧
    reFindSpans redactorPhonePattern "Call (415) 555-2671 now".data = [(5, 14)] := by
  decide

/-- C8 counterexample: the claim says writing a file's statistics to the
chosen sink appends, preserving everything previously written.  The
statistics write of `src/main.py` opens the sink in mode `'w'`: with
previous sink contents `"old stats\n"`, after the write the sink no longer
begins with (or contains) the previous contents. -/
theorem C8_main_stats_write_overwrites :
    main_write_stats "old stats\n".data ["Censored PHONE: 555-2671".data] =
      "Censored PHONE: 555-2671".data ∧
    (main_write_stats "old stats\n".data
        ["Censored PHONE: 555-2671".data]).take ("old stats\n".data).length ≠
      "old stats\n".data := by decide

/-- C8 amended: in `src/redactor.py`, `log_statistics` appends to the file
sink, so everything previously written is still present (the old contents
remain a prefix of the new contents); in `src/main.py`, the statistics are
written once at the end of the batch in overwrite mode, so the resulting
sink contents are the joined stat lines regardless of what the sink held
before. -/
theorem C8_append_vs_overwrite (sink entry : Text) (sink2 : Text)
    (stats : List Text) :
    (log_statistics_sink sink entry).take sink.length = sink ∧
    main_write_stats sink2 stats = joinLines stats := by
  constructor
  · unfold log_statistics_sink
    exact List.take_left sink entry
  · rfl

/-- C9: for every flag configuration handled by `main` in
`src/redactor.py` and every recognizer output, the logged statistics
counts for `NAMES`, `DATES`, `PHONES` and `ADDRESS` are zero: the
`entity_types` set holds the recognizer labels `PERSON`/`DATE`/`PHONE`/
`GPE`, while the counts test membership of the different strings
`NAMES`/`DATES`/`PHONES`/`ADDRESS` in that set. -/
theorem C9_stats_labels_mismatch_zero (n d p a : Bool) (ents : List Ent) :
    countNAMES ents (buildEntityTypes n d p a) = 0 ∧
    countDATES ents (buildEntityTypes n d p a) = 0 ∧
    countPHONES ents (buildEntityTypes n d p a) = 0 ∧
    countADDRESS ents (buildEntityTypes n d p a) = 0 := by
  obtain ⟨h1, h2, h3, h4⟩ := buildEntityTypes_no_stats_keys n d p a
  simp at h1 h2 h3 h4
  refine ⟨?_, ?_, ?_, ?_⟩
  · exact List.countP_eq_zero.mpr (fun e _ => by simp [h1])
  · exact List.countP_eq_zero.mpr (fun e _ => by simp [h2])
  · exact List.countP_eq_zero.mpr (fun e _ => by simp [h3])
  · exact List.countP_eq_zero.mpr (fun e _ => by simp [h4])

/-- C10: a multi-word related phrase (an expanded entry containing a
space) can never cause a concept sentence match: sentence membership is
tested on whitespace-delimited tokens, which contain no space, so removing
every entry that contains a space from the expanded set leaves
`redact_concept_sentences` unchanged on every document. -/
theorem C10_multiword_entries_never_match (docText : Text) (sents : List Text)
    (conceptWords : List Text) :
    redact_concept_sentences docText sents
        (conceptWords.filter (fun w => !w.contains ' ')) =
      redact_concept_sentences docText sents conceptWords := by
  unfold redact_concept_sentences
  exact foldl_conceptStep_filter conceptWords sents (docText, [])

end Redact
